import Mathlib

/-!
Shallow embedding of the people_researcher workflow
(src/people_researcher/state.py, nodes.py, graph.py) and proofs about it.

The external collaborators (the four pydantic-ai agents and the Tavily
search client) are modelled as oracle function bundles; the workflow core
is embedded as pure Lean functions translated from the Python source.
-/

/-- Employment record (state.py, class Employment). -/
structure Employment where
  name : String
  role : String
  year_started : Int
  year_ended : Option Int
deriving DecidableEq

/-- Structured information about a person (state.py, class PersonInfo). -/
structure PersonInfo where
  years_experience : Int
  current_company : String
  role : String
  prior_companies : List Employment
  notes : String
deriving DecidableEq

/-- Optional user-provided notes (state.py, class UserNotes). -/
structure UserNotes where
  additional : String
  context : String
deriving DecidableEq

/-- Mutable workflow state (state.py, dataclass PersonState). -/
structure PersonState where
  email : Option String
  name : Option String
  company : Option String
  linkedin : Option String
  role : Option String
  notes : List String
  search_queries : List String
  info : Option PersonInfo
  user_notes : Option UserNotes
  reflection_count : Nat
deriving DecidableEq

/-- Formats person info for prompts (state.py, PersonState.person_str).
A `None` email prints as the Python string rendering of `None`; the other
fields are included only when truthy (present and non-empty). -/
def PersonState.person_str (s : PersonState) : String :=
  let emailPart := "Email: " ++ (match s.email with
    | some e => e
    | none => "None")
  let namePart := match s.name with
    | some n => if n = "" then [] else ["Name: " ++ n]
    | none => []
  let linkedinPart := match s.linkedin with
    | some l => if l = "" then [] else ["LinkedIn URL: " ++ l]
    | none => []
  let rolePart := match s.role with
    | some r => if r = "" then [] else ["Role: " ++ r]
    | none => []
  let companyPart := match s.company with
    | some c => if c = "" then [] else ["Company: " ++ c]
    | none => []
  String.intercalate (" ") ([emailPart] ++ namePart ++ linkedinPart ++ rolePart ++ companyPart)

/-- Reflection verdict (nodes.py, class ReflectionOutput). -/
structure ReflectionOutput where
  is_satisfactory : Bool
  missing_fields : List String
  search_queries : List String
  reasoning : String
deriving DecidableEq

/-- Individual result from the Tavily API (nodes.py, class TavilyResult);
`raw_content` is `NotRequired`, hence optional. -/
structure TavilyResult where
  url : String
  title : String
  content : String
  raw_content : Option String
deriving DecidableEq

/-- Response from the Tavily API (nodes.py, class TavilyResponse). -/
structure TavilyResponse where
  results : List TavilyResult
deriving DecidableEq

/-- Generated search queries (nodes.py, class Queries). -/
structure Queries where
  queries : List String
deriving DecidableEq

/-- The input of `deduplicate_and_format_sources`: a single response or a
list of responses (nodes.py line 98). -/
def sourcesList : TavilyResponse ⊕ List TavilyResponse → List TavilyResult
  | Sum.inl r => r.results
  | Sum.inr rs => (rs.map (fun r => r.results)).flatten

/-- One iteration of the dedup loop (nodes.py lines 117-119): insert the
source only when its url is not yet a key of the ordered map. The ordered
map `unique_sources` (a Python dict preserves insertion order) is embedded
as a list. -/
def dedupInsert (acc : List TavilyResult) (s : TavilyResult) : List TavilyResult :=
  if acc.any (fun t => t.url == s.url) then acc else acc ++ [s]

/-- Python's code-point slice `r[:n]` (nodes.py line 140). -/
def strTake (s : String) (n : Nat) : String :=
  String.mk (s.data.take n)

/-- Rendering of the optional raw content (nodes.py lines 136-140): missing
renders as empty, over-long content is cut at `max_tokens * 4` characters
with a fixed marker appended, anything else is verbatim. -/
def formatRawContent (max_tokens : Nat) (rc : Option String) : String :=
  match rc with
  | none => ""
  | some r =>
    if r.length > max_tokens * 4 then strTake r (max_tokens * 4) ++ "... [truncated]"
    else r

/-- The text block emitted for one deduplicated source
(nodes.py lines 130-141). -/
def formatSource (max_tokens : Nat) (include_raw_content : Bool) (s : TavilyResult) : String :=
  "Source " ++ s.title ++ ":\n===\n"
    ++ "URL: " ++ s.url ++ "\n===\n"
    ++ "Most relevant content from source: " ++ s.content ++ "\n===\n"
    ++ (if include_raw_content then
          "Full source content limited to " ++ toString max_tokens ++ " tokens: "
            ++ formatRawContent max_tokens s.raw_content ++ "\n\n"
        else "")

/-- Format and deduplicate search results from Tavily
(nodes.py, deduplicate_and_format_sources). -/
def deduplicate_and_format_sources (search_response : TavilyResponse ⊕ List TavilyResponse)
    (max_tokens : Nat) (include_raw_content : Bool) : String :=
  let sources_list := sourcesList search_response
  let unique_sources := sources_list.foldl dedupInsert []
  ("Sources:\n\n"
    ++ String.join (unique_sources.map (formatSource max_tokens include_raw_content))).trim

/-- Follows the spec's words for the dedup policy (spec section 4.2: first
occurrence wins, first-seen order preserved, given the set of urls already
seen): used to compare with the source-derived `dedupInsert` fold. -/
def firstSeenFrom (seen : List String) : List TavilyResult → List TavilyResult
  | [] => []
  | s :: rest =>
    if s.url ∈ seen then firstSeenFrom seen rest
    else s :: firstSeenFrom (s.url :: seen) rest

lemma firstSeenFrom_congr (l : List TavilyResult) : ∀ seen1 seen2 : List String,
    (∀ u, u ∈ seen1 ↔ u ∈ seen2) → firstSeenFrom seen1 l = firstSeenFrom seen2 l := by
  induction l with
  | nil => intro seen1 seen2 _; rfl
  | cons s rest ih =>
    intro seen1 seen2 h
    by_cases hs : s.url ∈ seen1
    · rw [firstSeenFrom, firstSeenFrom, if_pos hs, if_pos ((h s.url).mp hs), ih seen1 seen2 h]
    · rw [firstSeenFrom, firstSeenFrom, if_neg hs, if_neg (fun hc => hs ((h s.url).mpr hc))]
      refine congrArg _ (ih _ _ ?_)
      intro u
      simp only [List.mem_cons]
      exact or_congr Iff.rfl (h u)

lemma foldl_dedupInsert (l : List TavilyResult) : ∀ acc : List TavilyResult,
    l.foldl dedupInsert acc = acc ++ firstSeenFrom (acc.map (fun t => t.url)) l := by
  induction l with
  | nil => intro acc; simp [firstSeenFrom]
  | cons s rest ih =>
    intro acc
    by_cases h : s.url ∈ acc.map (fun t => t.url)
    · have hins : dedupInsert acc s = acc := by
        obtain ⟨t, ht, hu⟩ := List.mem_map.mp h
        have : acc.any (fun t => t.url == s.url) = true :=
          List.any_eq_true.mpr ⟨t, ht, by simp [hu]⟩
        simp [dedupInsert, this]
      rw [List.foldl_cons, hins, ih acc, firstSeenFrom, if_pos h]
    · have hins : dedupInsert acc s = acc ++ [s] := by
        have : acc.any (fun t => t.url == s.url) = false := by
          rw [List.any_eq_false]
          intro t ht
          simp only [beq_iff_eq]
          intro hu
          exact h (List.mem_map.mpr ⟨t, ht, hu⟩)
        simp [dedupInsert, this]
      rw [List.foldl_cons, hins, ih (acc ++ [s]), firstSeenFrom, if_neg h, List.append_assoc,
        List.singleton_append, List.map_append]
      refine congrArg _ (congrArg _ (firstSeenFrom_congr rest _ _ ?_))
      intro u
      simp only [List.map_cons, List.map_nil, List.mem_append, List.mem_singleton, List.mem_cons,
        List.not_mem_nil, or_false]
      exact or_comm

lemma firstSeenFrom_url_not_mem (l : List TavilyResult) : ∀ (seen : List String)
    (s : TavilyResult), s ∈ firstSeenFrom seen l → s.url ∉ seen := by
  induction l with
  | nil => intro seen s hs; simp [firstSeenFrom] at hs
  | cons a rest ih =>
    intro seen s hs
    rw [firstSeenFrom] at hs
    by_cases ha : a.url ∈ seen
    · rw [if_pos ha] at hs
      exact ih seen s hs
    · rw [if_neg ha] at hs
      rcases List.mem_cons.mp hs with h | h
      · subst h; exact ha
      · intro hmem
        exact ih _ s h (List.mem_cons_of_mem _ hmem)

lemma firstSeenFrom_nodup (l : List TavilyResult) : ∀ seen : List String,
    ((firstSeenFrom seen l).map (fun t => t.url)).Nodup := by
  induction l with
  | nil => intro seen; simp [firstSeenFrom]
  | cons a rest ih =>
    intro seen
    rw [firstSeenFrom]
    by_cases ha : a.url ∈ seen
    · rw [if_pos ha]; exact ih seen
    · rw [if_neg ha]
      rw [List.map_cons, List.nodup_cons]
      refine ⟨?_, ih _⟩
      intro hmem
      obtain ⟨t, ht, hu⟩ := List.mem_map.mp hmem
      have := firstSeenFrom_url_not_mem rest _ t ht
      exact this (by rw [hu]; exact List.mem_cons_self _ _)

lemma firstSeenFrom_mem_url (l : List TavilyResult) : ∀ (seen : List String) (u : String),
    u ∈ (firstSeenFrom seen l).map (fun t => t.url) ↔
      u ∈ l.map (fun t => t.url) ∧ u ∉ seen := by
  induction l with
  | nil => intro seen u; simp [firstSeenFrom]
  | cons a rest ih =>
    intro seen u
    rw [firstSeenFrom]
    by_cases ha : a.url ∈ seen
    · rw [if_pos ha, ih seen u, List.map_cons, List.mem_cons]
      constructor
      · rintro ⟨h1, h2⟩; exact ⟨Or.inr h1, h2⟩
      · rintro ⟨h1 | h1, h2⟩
        · subst h1; exact absurd ha h2
        · exact ⟨h1, h2⟩
    · rw [if_neg ha, List.map_cons, List.map_cons, List.mem_cons, List.mem_cons, ih _ u]
      constructor
      · rintro (h | ⟨h1, h2⟩)
        · subst h; exact ⟨Or.inl rfl, ha⟩
        · exact ⟨Or.inr h1, fun hc => h2 (List.mem_cons_of_mem _ hc)⟩
      · rintro ⟨h1 | h1, h2⟩
        · exact Or.inl h1
        · by_cases hu : u = a.url
          · exact Or.inl hu
          · refine Or.inr ⟨h1, fun hc => ?_⟩
            rcases List.mem_cons.mp hc with h3 | h3
            · exact hu h3
            · exact h2 h3

lemma firstSeenFrom_find (l : List TavilyResult) : ∀ (seen : List String) (s : TavilyResult),
    s ∈ firstSeenFrom seen l → l.find? (fun t => t.url == s.url) = some s := by
  induction l with
  | nil => intro seen s hs; simp [firstSeenFrom] at hs
  | cons a rest ih =>
    intro seen s hs
    rw [firstSeenFrom] at hs
    by_cases ha : a.url ∈ seen
    · rw [if_pos ha] at hs
      have hne : s.url ≠ a.url := by
        intro hc
        exact firstSeenFrom_url_not_mem rest seen s hs (hc ▸ ha)
      have hfalse : (a.url == s.url) = false := by
        simp only [beq_eq_false_iff_ne, ne_eq]
        exact fun hc => hne hc.symm
      rw [List.find?]
      simp only [hfalse]
      exact ih seen s hs
    · rw [if_neg ha] at hs
      rcases List.mem_cons.mp hs with h | h
      · subst h
        rw [List.find?]
        simp
      · have hne : s.url ≠ a.url := by
          intro hc
          exact firstSeenFrom_url_not_mem rest _ s h (hc ▸ List.mem_cons_self _ _)
        have hfalse : (a.url == s.url) = false := by
          simp only [beq_eq_false_iff_ne, ne_eq]
          exact fun hc => hne hc.symm
        rw [List.find?]
        simp only [hfalse]
        exact ih _ s h

lemma firstSeenFrom_sublist (l : List TavilyResult) : ∀ seen : List String,
    List.Sublist (firstSeenFrom seen l) l := by
  induction l with
  | nil => intro seen; simp [firstSeenFrom]
  | cons a rest ih =>
    intro seen
    rw [firstSeenFrom]
    by_cases ha : a.url ∈ seen
    · rw [if_pos ha]
      exact List.Sublist.cons a (ih seen)
    · rw [if_neg ha]
      exact List.Sublist.cons₂ a (ih _)

/-- Default PersonInfo when no info is available
(nodes.py, Reflect._create_default_info). -/
def create_default_info : PersonInfo :=
  { years_experience := 0
    current_company := "Unknown"
    role := "Unknown"
    prior_companies := []
    notes := "No information available" }

/-- The external collaborators of the workflow: the four completion agents
(nodes.py lines 67-94) and the Tavily search client (nodes.py line 26).
Each agent takes the index of the call (how many calls to that agent the
run has already made) so that distinct calls may return distinct values,
and the inputs the source passes to it.  The reflection agent receives the
notes and the optional extracted record, whose JSON dump is what the
source sends (nodes.py lines 243-253). -/
structure Oracles where
  query_agent : Nat → String → Queries
  tavily_search : String → TavilyResponse
  research_notes_agent : Nat → String → String
  extraction_agent : Nat → String → PersonInfo
  reflection_agent : Nat → List String → Option PersonInfo → ReflectionOutput

/-- The nodes of the research graph (graph.py, nodes.py), plus the
terminal `done` carrying the `End[PersonInfo]` payload. -/
inductive Node where
  | genQueries
  | research
  | extract
  | reflect
  | done (record : PersonInfo)
deriving DecidableEq

/-- A configuration of a run: the mutable state, the node about to run,
and how many times each node has completed (instrumentation used to state
the pass-count claims). -/
structure Config where
  state : PersonState
  node : Node
  gen_count : Nat
  research_count : Nat
  extract_count : Nat
  reflect_count : Nat
deriving DecidableEq

/-- Initial PersonState: the identity fields from the caller, the runtime
fields at their dataclass defaults (state.py lines 43-48). -/
def initialState (email nm co li ro : Option String) (un : Option UserNotes) : PersonState :=
  { email := email, name := nm, company := co, linkedin := li, role := ro,
    notes := [], search_queries := [], info := none, user_notes := un,
    reflection_count := 0 }

/-- A run starts at the GenerateQueries node (graph.py, main entry). -/
def initConfig (s : PersonState) : Config :=
  ⟨s, Node.genQueries, 0, 0, 0, 0⟩

/-- Initial configuration of a run from the caller-supplied subject. -/
def init0 (email nm co li ro : Option String) (un : Option UserNotes) : Config :=
  initConfig (initialState email nm co li ro un)

/-- One step of the graph: executes the `run` method of the current node
(nodes.py: GenerateQueries.run, Research.run, Extract.run, Reflect.run)
and moves to the node it returns; a `done` configuration is final. -/
def stepConfig (o : Oracles) (c : Config) : Config :=
  match c.node with
  | Node.genQueries =>
    let result := o.query_agent c.gen_count c.state.person_str
    { c with state := { c.state with search_queries := result.queries },
             node := Node.research, gen_count := c.gen_count + 1 }
  | Node.research =>
    let search_results := c.state.search_queries.map o.tavily_search
    let source_str := deduplicate_and_format_sources (Sum.inr search_results) 1000 true
    let note := o.research_notes_agent c.research_count source_str
    { c with state := { c.state with notes := c.state.notes ++ [note] },
             node := Node.extract, research_count := c.research_count + 1 }
  | Node.extract =>
    let extracted := o.extraction_agent c.extract_count (String.intercalate ("\n\n") c.state.notes)
    { c with state := { c.state with info := some extracted },
             node := Node.reflect, extract_count := c.extract_count + 1 }
  | Node.reflect =>
    let verdict := o.reflection_agent c.reflect_count c.state.notes c.state.info
    if verdict.is_satisfactory then
      { c with node := Node.done (c.state.info.getD create_default_info),
               reflect_count := c.reflect_count + 1 }
    else if c.state.reflection_count < 2 then
      let s2 := { c.state with
        reflection_count := c.state.reflection_count + 1
        search_queries := verdict.search_queries }
      { c with state := s2, node := Node.genQueries, reflect_count := c.reflect_count + 1 }
    else
      { c with node := Node.done (c.state.info.getD create_default_info),
               reflect_count := c.reflect_count + 1 }
  | Node.done _ => c

/-- `runN o c n` is the configuration after `n` graph steps from `c`. -/
def runN (o : Oracles) (c : Config) : Nat → Config
  | 0 => c
  | n + 1 => stepConfig o (runN o c n)

lemma runN_succ (o : Oracles) (c : Config) (n : Nat) :
    runN o c (n + 1) = stepConfig o (runN o c n) := rfl

lemma runN_add (o : Oracles) (c : Config) (m : Nat) :
    ∀ n : Nat, runN o c (m + n) = runN o (runN o c m) n := by
  intro n
  induction n with
  | zero => rfl
  | succ k ih => rw [← Nat.add_assoc, runN_succ, ih, runN_succ]

lemma step_gen (o : Oracles) (s : PersonState) (g r e f : Nat) :
    stepConfig o ⟨s, Node.genQueries, g, r, e, f⟩ =
      ⟨{ s with search_queries := (o.query_agent g s.person_str).queries },
        Node.research, g + 1, r, e, f⟩ := rfl

lemma step_research (o : Oracles) (s : PersonState) (g r e f : Nat) :
    stepConfig o ⟨s, Node.research, g, r, e, f⟩ =
      ⟨{ s with notes := s.notes ++ [o.research_notes_agent r
          (deduplicate_and_format_sources
            (Sum.inr (s.search_queries.map o.tavily_search)) 1000 true)] },
        Node.extract, g, r + 1, e, f⟩ := rfl

lemma step_extract (o : Oracles) (s : PersonState) (g r e f : Nat) :
    stepConfig o ⟨s, Node.extract, g, r, e, f⟩ =
      ⟨{ s with info := some (o.extraction_agent e (String.intercalate ("\n\n") s.notes)) },
        Node.reflect, g, r, e + 1, f⟩ := rfl

lemma step_reflect_sat (o : Oracles) (s : PersonState) (g r e f : Nat)
    (hv : (o.reflection_agent f s.notes s.info).is_satisfactory = true) :
    stepConfig o ⟨s, Node.reflect, g, r, e, f⟩ =
      ⟨s, Node.done (s.info.getD create_default_info), g, r, e, f + 1⟩ := by
  simp [stepConfig, hv]

lemma step_reflect_unsat (o : Oracles) (s : PersonState) (g r e f : Nat)
    (hv : (o.reflection_agent f s.notes s.info).is_satisfactory = false)
    (hrc : s.reflection_count < 2) :
    stepConfig o ⟨s, Node.reflect, g, r, e, f⟩ =
      ⟨{ s with
          reflection_count := s.reflection_count + 1
          search_queries := (o.reflection_agent f s.notes s.info).search_queries },
        Node.genQueries, g, r, e, f + 1⟩ := by
  simp [stepConfig, hv, hrc]

lemma step_reflect_stop (o : Oracles) (s : PersonState) (g r e f : Nat)
    (hv : (o.reflection_agent f s.notes s.info).is_satisfactory = false)
    (hrc : ¬ s.reflection_count < 2) :
    stepConfig o ⟨s, Node.reflect, g, r, e, f⟩ =
      ⟨s, Node.done (s.info.getD create_default_info), g, r, e, f + 1⟩ := by
  simp [stepConfig, hv, hrc]

lemma stepConfig_done (o : Oracles) (c : Config) (rec : PersonInfo)
    (h : c.node = Node.done rec) : stepConfig o c = c := by
  obtain ⟨s, nd, g, r, e, f⟩ := c
  cases nd with
  | done rec2 => rfl
  | genQueries => exact absurd h (by simp)
  | research => exact absurd h (by simp)
  | extract => exact absurd h (by simp)
  | reflect => exact absurd h (by simp)

lemma runN_done (o : Oracles) (c : Config) (rec : PersonInfo)
    (h : c.node = Node.done rec) : ∀ n, runN o c n = c := by
  intro n
  induction n with
  | zero => rfl
  | succ k ih => rw [runN_succ, ih, stepConfig_done o c rec h]

lemma run_cycle_unsat (o : Oracles) (s : PersonState) (g r e f : Nat)
    (hunsat : ∀ n ns i, (o.reflection_agent n ns i).is_satisfactory = false)
    (hrc : s.reflection_count < 2) :
    ∃ s2 : PersonState,
      runN o ⟨s, Node.genQueries, g, r, e, f⟩ 4 = ⟨s2, Node.genQueries, g + 1, r + 1, e + 1, f + 1⟩
      ∧ s2.reflection_count = s.reflection_count + 1
      ∧ s2.info.isSome = true
      ∧ s2.person_str = s.person_str
      ∧ (runN o ⟨s, Node.genQueries, g, r, e, f⟩ 1).node = Node.research
      ∧ (runN o ⟨s, Node.genQueries, g, r, e, f⟩ 2).node = Node.extract
      ∧ (runN o ⟨s, Node.genQueries, g, r, e, f⟩ 3).node = Node.reflect := by
  obtain ⟨s3, hs3, hrc3, hps3, hinfo3⟩ :
      ∃ s3 : PersonState,
        runN o ⟨s, Node.genQueries, g, r, e, f⟩ 3 = ⟨s3, Node.reflect, g + 1, r + 1, e + 1, f⟩
        ∧ s3.reflection_count = s.reflection_count
        ∧ s3.person_str = s.person_str
        ∧ s3.info.isSome = true :=
    ⟨_, rfl, rfl, rfl, rfl⟩
  have hrcs3 : s3.reflection_count < 2 := by rw [hrc3]; exact hrc
  have h4succ : runN o ⟨s, Node.genQueries, g, r, e, f⟩ 4
      = stepConfig o (runN o ⟨s, Node.genQueries, g, r, e, f⟩ 3) := rfl
  have h4 : runN o ⟨s, Node.genQueries, g, r, e, f⟩ 4
      = ⟨{ s3 with
            reflection_count := s3.reflection_count + 1
            search_queries := (o.reflection_agent f s3.notes s3.info).search_queries },
          Node.genQueries, g + 1, r + 1, e + 1, f + 1⟩ := by
    rw [h4succ, hs3,
      step_reflect_unsat o s3 (g + 1) (r + 1) (e + 1) f (hunsat f s3.notes s3.info) hrcs3]
  refine ⟨_, h4, ?_, hinfo3, hps3, rfl, rfl, rfl⟩
  show s3.reflection_count + 1 = s.reflection_count + 1
  rw [hrc3]

lemma run_cycle_stop (o : Oracles) (s : PersonState) (g r e f : Nat)
    (hunsat : ∀ n ns i, (o.reflection_agent n ns i).is_satisfactory = false)
    (hrc : ¬ s.reflection_count < 2) :
    ∃ (s3 : PersonState) (rec : PersonInfo),
      runN o ⟨s, Node.genQueries, g, r, e, f⟩ 4 = ⟨s3, Node.done rec, g + 1, r + 1, e + 1, f + 1⟩
      ∧ s3.info = some rec
      ∧ (runN o ⟨s, Node.genQueries, g, r, e, f⟩ 1).node = Node.research
      ∧ (runN o ⟨s, Node.genQueries, g, r, e, f⟩ 2).node = Node.extract
      ∧ (runN o ⟨s, Node.genQueries, g, r, e, f⟩ 3).node = Node.reflect := by
  obtain ⟨s3, i, hs3, hrc3, hinfo3⟩ :
      ∃ (s3 : PersonState) (i : PersonInfo),
        runN o ⟨s, Node.genQueries, g, r, e, f⟩ 3 = ⟨s3, Node.reflect, g + 1, r + 1, e + 1, f⟩
        ∧ s3.reflection_count = s.reflection_count
        ∧ s3.info = some i :=
    ⟨_, _, rfl, rfl, rfl⟩
  have hrcs3 : ¬ s3.reflection_count < 2 := by rw [hrc3]; exact hrc
  have h4succ : runN o ⟨s, Node.genQueries, g, r, e, f⟩ 4
      = stepConfig o (runN o ⟨s, Node.genQueries, g, r, e, f⟩ 3) := rfl
  have h4 : runN o ⟨s, Node.genQueries, g, r, e, f⟩ 4
      = ⟨s3, Node.done (s3.info.getD create_default_info), g + 1, r + 1, e + 1, f + 1⟩ := by
    rw [h4succ, hs3,
      step_reflect_stop o s3 (g + 1) (r + 1) (e + 1) f (hunsat f s3.notes s3.info) hrcs3]
  refine ⟨s3, i, ?_, hinfo3, rfl, rfl, rfl⟩
  rw [h4]
  simp [hinfo3]

lemma reflection_count_le_step (o : Oracles) (c : Config)
    (h : c.state.reflection_count ≤ 2) : (stepConfig o c).state.reflection_count ≤ 2 := by
  obtain ⟨s, nd, g, r, e, f⟩ := c
  cases nd with
  | genQueries => exact h
  | research => exact h
  | extract => exact h
  | done rec => exact h
  | reflect =>
    by_cases hv : (o.reflection_agent f s.notes s.info).is_satisfactory = true
    · rw [step_reflect_sat o s g r e f hv]; exact h
    · have hv2 : (o.reflection_agent f s.notes s.info).is_satisfactory = false := by
        simpa using hv
      by_cases hrc : s.reflection_count < 2
      · rw [step_reflect_unsat o s g r e f hv2 hrc]
        show s.reflection_count + 1 ≤ 2
        omega
      · rw [step_reflect_stop o s g r e f hv2 hrc]; exact h

lemma research_entered_from_gen (o : Oracles) (c : Config) (n : Nat)
    (h : (runN o c (n + 1)).node = Node.research) :
    (runN o c n).node = Node.genQueries
    ∧ (runN o c (n + 1)).state.search_queries
        = (o.query_agent (runN o c n).gen_count (runN o c n).state.person_str).queries := by
  have hstep : runN o c (n + 1) = stepConfig o (runN o c n) := runN_succ o c n
  rw [hstep] at h ⊢
  generalize hd : runN o c n = d at h ⊢
  obtain ⟨s, nd, g, r, e, f⟩ := d
  cases nd with
  | genQueries => exact ⟨rfl, rfl⟩
  | research => rw [step_research] at h; exact absurd h (by simp)
  | extract => rw [step_extract] at h; exact absurd h (by simp)
  | done rec => rw [stepConfig_done o _ rec rfl] at h; exact absurd h (by simp)
  | reflect =>
    by_cases hv : (o.reflection_agent f s.notes s.info).is_satisfactory = true
    · rw [step_reflect_sat o s g r e f hv] at h
      exact absurd h (by simp)
    · have hv2 : (o.reflection_agent f s.notes s.info).is_satisfactory = false := by
        simpa using hv
      by_cases hrc : s.reflection_count < 2
      · rw [step_reflect_unsat o s g r e f hv2 hrc] at h
        exact absurd h (by simp)
      · rw [step_reflect_stop o s g r e f hv2 hrc] at h
        exact absurd h (by simp)

/-- C2: for every input (single response or list of responses, possibly with
repeated urls), the aggregator's output is the formatted rendering of the
first-occurrence-wins, first-seen-order deduplication of the concatenated
per-query results: one entry per distinct url (urls pairwise distinct, same
url set as the input), each entry the first-occurring document with its url,
entries in first-seen (sublist) order. -/
theorem C2_dedup_correctness (resp : TavilyResponse ⊕ List TavilyResponse)
    (max_tokens : Nat) (include_raw_content : Bool) :
    deduplicate_and_format_sources resp max_tokens include_raw_content
      = ("Sources:\n\n" ++ String.join ((firstSeenFrom [] (sourcesList resp)).map
          (formatSource max_tokens include_raw_content))).trim
    ∧ ((firstSeenFrom [] (sourcesList resp)).map (fun t => t.url)).Nodup
    ∧ (∀ u, u ∈ (firstSeenFrom [] (sourcesList resp)).map (fun t => t.url) ↔
        u ∈ (sourcesList resp).map (fun t => t.url))
    ∧ (∀ s, s ∈ firstSeenFrom [] (sourcesList resp) →
        (sourcesList resp).find? (fun t => t.url == s.url) = some s)
    ∧ List.Sublist (firstSeenFrom [] (sourcesList resp)) (sourcesList resp) := by
  refine ⟨?_, firstSeenFrom_nodup _ _, ?_, fun s hs => firstSeenFrom_find _ _ s hs,
    firstSeenFrom_sublist _ _⟩
  · show ("Sources:\n\n" ++ String.join (((sourcesList resp).foldl dedupInsert []).map
        (formatSource max_tokens include_raw_content))).trim = _
    rw [foldl_dedupInsert]
    simp
  · intro u
    rw [firstSeenFrom_mem_url]
    simp

/-- Concrete documents used by closed witness instances. -/
def witDocA : TavilyResult :=
  { url := "https://example.com/a", title := "A", content := "alpha", raw_content := none }

/-- A second document with the same url as `witDocA` but different content. -/
def witDocA2 : TavilyResult :=
  { url := "https://example.com/a", title := "A2", content := "beta", raw_content := some ("raw") }

/-- A document with a distinct url. -/
def witDocB : TavilyResult :=
  { url := "https://example.com/b", title := "B", content := "gamma", raw_content := none }

theorem C2_dedup_correctness_witness :
    ((firstSeenFrom [] (sourcesList (Sum.inl ⟨[witDocA, witDocA2, witDocB]⟩))).map
      (fun t => t.url)).Nodup :=
  (C2_dedup_correctness (Sum.inl ⟨[witDocA, witDocA2, witDocB]⟩) 1000 true).2.1

/-- C6 counterexample: a raw content that ends with the truncation marker at
exactly the cap boundary is longer than `maxTokens * 4` characters, yet the
code's rendering of it equals the full raw content, contradicting the
claim's clause that the output never contains the full raw content. -/
theorem C6_counterexample :
    1 * 4 < ("abcd... [truncated]" : String).length
    ∧ formatRawContent 1 (some ("abcd... [truncated]")) = "abcd... [truncated]" := by
  constructor
  · decide
  · decide

/-- C6 (amended): for raw content longer than `maxTokens * 4` characters the
rendering is exactly the first `maxTokens * 4` characters followed by the
fixed marker (so its total length is `maxTokens * 4 + 15` and everything
past the cap is dropped); content at or below the cap is emitted verbatim;
missing raw content renders as the empty string.  The rendering can
coincide with the full raw content only in the degenerate case where the
raw content equals its own cap prefix followed by the marker. -/
theorem C6_truncation_bound (max_tokens : Nat) (rc : Option String) :
    (rc = none → formatRawContent max_tokens rc = "")
    ∧ (∀ r, rc = some r → r.length ≤ max_tokens * 4 → formatRawContent max_tokens rc = r)
    ∧ (∀ r, rc = some r → max_tokens * 4 < r.length →
        formatRawContent max_tokens rc = strTake r (max_tokens * 4) ++ "... [truncated]"
        ∧ (formatRawContent max_tokens rc).length = max_tokens * 4 + 15) := by
  refine ⟨?_, ?_, ?_⟩
  · rintro rfl; rfl
  · rintro r rfl hle
    show (if r.length > max_tokens * 4 then strTake r (max_tokens * 4) ++ "... [truncated]"
      else r) = r
    rw [if_neg (by omega)]
  · rintro r rfl hlt
    have heq : formatRawContent max_tokens (some r)
        = strTake r (max_tokens * 4) ++ "... [truncated]" := by
      show (if r.length > max_tokens * 4 then strTake r (max_tokens * 4) ++ "... [truncated]"
        else r) = _
      rw [if_pos (by omega)]
    refine ⟨heq, ?_⟩
    rw [heq, String.length_append]
    have h1 : (strTake r (max_tokens * 4)).length = max_tokens * 4 := by
      show (r.data.take (max_tokens * 4)).length = max_tokens * 4
      rw [List.length_take]
      have h2 : r.length = r.data.length := rfl
      omega
    have h3 : ("... [truncated]" : String).length = 15 := rfl
    omega

theorem C6_truncation_bound_witness :
    formatRawContent 1 (some ("abcdefgh")) = strTake ("abcdefgh") (1 * 4) ++ "... [truncated]"
    ∧ (formatRawContent 1 (some ("abcdefgh"))).length = 1 * 4 + 15 :=
  (C6_truncation_bound 1 (some ("abcdefgh"))).2.2 ("abcdefgh") rfl (by decide)

/-- An always-unsatisfactory reflection verdict, for witness instances. -/
def unsatVerdict : ReflectionOutput :=
  { is_satisfactory := false
    missing_fields := ["role"]
    search_queries := ["follow-up query"]
    reasoning := "incomplete" }

/-- A concrete search document, for witness instances. -/
def trivResult : TavilyResult :=
  { url := "https://example.com", title := "t", content := "c", raw_content := none }

/-- Concrete collaborators whose reflection verdict is always
unsatisfactory, for witness instances. -/
def trivOracles : Oracles :=
  { query_agent := fun _ _ => ⟨["q0"]⟩
    tavily_search := fun _ => ⟨[trivResult]⟩
    research_notes_agent := fun _ _ => "note"
    extraction_agent := fun _ _ =>
      { years_experience := 1, current_company := "Acme", role := "Engineer",
        prior_companies := [], notes := "n" }
    reflection_agent := fun _ _ _ => unsatVerdict }

/-- Concrete collaborators whose reflection verdict is always satisfactory. -/
def satOracles : Oracles :=
  { trivOracles with reflection_agent := fun _ _ _ => { unsatVerdict with is_satisfactory := true } }

/-- Concrete collaborators whose query generator returns no queries. -/
def emptyQueryOracles : Oracles :=
  { trivOracles with query_agent := fun _ _ => ⟨[]⟩ }

/-- C1: if the reflection verdict is unsatisfactory on every cycle, the run
performs exactly 3 query-generation passes (the initial one plus 2
reflection-triggered ones), is not terminal at any of the first 12 steps,
and after 12 steps is terminal with the current extracted record, all
further steps leaving it unchanged — regardless of the content of the third
verdict beyond its unsatisfactory flag. -/
theorem C1_cycle_bound (o : Oracles) (email nm co li ro : Option String) (un : Option UserNotes)
    (hunsat : ∀ n ns i, (o.reflection_agent n ns i).is_satisfactory = false) :
    (runN o (init0 email nm co li ro un) 12).gen_count = 3
    ∧ (∃ rec, (runN o (init0 email nm co li ro un) 12).node = Node.done rec
        ∧ (runN o (init0 email nm co li ro un) 12).state.info = some rec)
    ∧ (∀ k, k < 12 → ∀ rec, (runN o (init0 email nm co li ro un) k).node ≠ Node.done rec)
    ∧ (∀ m, runN o (init0 email nm co li ro un) (12 + m) = runN o (init0 email nm co li ro un) 12) := by
  have h0 : init0 email nm co li ro un
      = ⟨initialState email nm co li ro un, Node.genQueries, 0, 0, 0, 0⟩ := rfl
  obtain ⟨s2, h4, hrc2, hinfo2, hps2, hn1, hn2, hn3⟩ :=
    run_cycle_unsat o (initialState email nm co li ro un) 0 0 0 0 hunsat (by
      show (0 : Nat) < 2
      omega)
  obtain ⟨s4, h8, hrc4, hinfo4, hps4, hn5, hn6, hn7⟩ :=
    run_cycle_unsat o s2 1 1 1 1 hunsat (by
      rw [hrc2]
      show (0 : Nat) + 1 < 2
      omega)
  have hrc4e : s4.reflection_count = 2 := by
    rw [hrc4, hrc2]
    rfl
  obtain ⟨s6, rec, h12, hinfo6, hn9, hn10, hn11⟩ :=
    run_cycle_stop o s4 2 2 2 2 hunsat (by omega)
  have e4 : runN o (init0 email nm co li ro un) 4 = ⟨s2, Node.genQueries, 1, 1, 1, 1⟩ := by
    rw [h0]; exact h4
  have e8 : runN o (init0 email nm co li ro un) 8 = ⟨s4, Node.genQueries, 2, 2, 2, 2⟩ := by
    rw [show (8 : Nat) = 4 + 4 from rfl, runN_add, e4]
    exact h8
  have e12 : runN o (init0 email nm co li ro un) 12 = ⟨s6, Node.done rec, 3, 3, 3, 3⟩ := by
    rw [show (12 : Nat) = 8 + 4 from rfl, runN_add, e8]
    exact h12
  refine ⟨by rw [e12], ⟨rec, by rw [e12], by rw [e12]; exact hinfo6⟩, ?_, ?_⟩
  · intro k hk rec2
    have e0 : (runN o (init0 email nm co li ro un) 0).node = Node.genQueries := rfl
    have e1 : (runN o (init0 email nm co li ro un) 1).node = Node.research := by
      rw [h0]; exact hn1
    have e2 : (runN o (init0 email nm co li ro un) 2).node = Node.extract := by
      rw [h0]; exact hn2
    have e3 : (runN o (init0 email nm co li ro un) 3).node = Node.reflect := by
      rw [h0]; exact hn3
    have e4n : (runN o (init0 email nm co li ro un) 4).node = Node.genQueries := by
      rw [e4]
    have e5 : (runN o (init0 email nm co li ro un) 5).node = Node.research := by
      rw [show (5 : Nat) = 4 + 1 from rfl, runN_add, e4]; exact hn5
    have e6 : (runN o (init0 email nm co li ro un) 6).node = Node.extract := by
      rw [show (6 : Nat) = 4 + 2 from rfl, runN_add, e4]; exact hn6
    have e7 : (runN o (init0 email nm co li ro un) 7).node = Node.reflect := by
      rw [show (7 : Nat) = 4 + 3 from rfl, runN_add, e4]; exact hn7
    have e8n : (runN o (init0 email nm co li ro un) 8).node = Node.genQueries := by
      rw [e8]
    have e9 : (runN o (init0 email nm co li ro un) 9).node = Node.research := by
      rw [show (9 : Nat) = 8 + 1 from rfl, runN_add, e8]; exact hn9
    have e10 : (runN o (init0 email nm co li ro un) 10).node = Node.extract := by
      rw [show (10 : Nat) = 8 + 2 from rfl, runN_add, e8]; exact hn10
    have e11 : (runN o (init0 email nm co li ro un) 11).node = Node.reflect := by
      rw [show (11 : Nat) = 8 + 3 from rfl, runN_add, e8]; exact hn11
    interval_cases k <;>
      simp_all
  · intro m
    rw [runN_add, e12, runN_done o _ rec rfl]

theorem C1_cycle_bound_witness :
    (runN trivOracles (init0 none none none none none none) 12).gen_count = 3 :=
  (C1_cycle_bound trivOracles none none none none none none (fun _ _ _ => rfl)).1

/-- C5: if the first reflection verdict is satisfactory, the run performs
exactly one query-generation pass, one research pass, one extraction and
one reflection, then terminates with the extracted record, and the
reflection counter is still 0 at termination. -/
theorem C5_early_termination (o : Oracles) (email nm co li ro : Option String)
    (un : Option UserNotes)
    (hsat : (o.reflection_agent 0 (runN o (init0 email nm co li ro un) 3).state.notes
      (runN o (init0 email nm co li ro un) 3).state.info).is_satisfactory = true) :
    (∃ rec, (runN o (init0 email nm co li ro un) 4).node = Node.done rec
      ∧ (runN o (init0 email nm co li ro un) 3).state.info = some rec)
    ∧ (runN o (init0 email nm co li ro un) 4).gen_count = 1
    ∧ (runN o (init0 email nm co li ro un) 4).research_count = 1
    ∧ (runN o (init0 email nm co li ro un) 4).extract_count = 1
    ∧ (runN o (init0 email nm co li ro un) 4).reflect_count = 1
    ∧ (runN o (init0 email nm co li ro un) 4).state.reflection_count = 0
    ∧ (∀ k, k < 4 → ∀ rec, (runN o (init0 email nm co li ro un) k).node ≠ Node.done rec)
    ∧ (∀ m, runN o (init0 email nm co li ro un) (4 + m) = runN o (init0 email nm co li ro un) 4) := by
  obtain ⟨s3, i, hs3, hrc3, hinfo3⟩ :
      ∃ (s3 : PersonState) (i : PersonInfo),
        runN o (init0 email nm co li ro un) 3 = ⟨s3, Node.reflect, 1, 1, 1, 0⟩
        ∧ s3.reflection_count = 0
        ∧ s3.info = some i :=
    ⟨_, _, rfl, rfl, rfl⟩
  have hv : (o.reflection_agent 0 s3.notes s3.info).is_satisfactory = true := by
    rw [hs3] at hsat
    exact hsat
  have h4succ : runN o (init0 email nm co li ro un) 4
      = stepConfig o (runN o (init0 email nm co li ro un) 3) := rfl
  have h4 : runN o (init0 email nm co li ro un) 4
      = ⟨s3, Node.done (s3.info.getD create_default_info), 1, 1, 1, 1⟩ := by
    rw [h4succ, hs3, step_reflect_sat o s3 1 1 1 0 hv]
  have h4i : runN o (init0 email nm co li ro un) 4 = ⟨s3, Node.done i, 1, 1, 1, 1⟩ := by
    rw [h4]
    simp [hinfo3]
  refine ⟨⟨i, by rw [h4i], by rw [hs3]; exact hinfo3⟩, by rw [h4i], by rw [h4i], by rw [h4i],
    by rw [h4i], by rw [h4i]; exact hrc3, ?_, ?_⟩
  · intro k hk rec
    have e0 : (runN o (init0 email nm co li ro un) 0).node = Node.genQueries := rfl
    have e1 : (runN o (init0 email nm co li ro un) 1).node = Node.research := rfl
    have e2 : (runN o (init0 email nm co li ro un) 2).node = Node.extract := rfl
    have e3 : (runN o (init0 email nm co li ro un) 3).node = Node.reflect := by
      rw [hs3]
    interval_cases k <;> simp_all
  · intro m
    rw [runN_add, h4i, runN_done o _ i rfl]

theorem C5_early_termination_witness :
    (runN satOracles (init0 none none none none none none) 4).gen_count = 1 :=
  (C5_early_termination satOracles none none none none none none rfl).2.1

/-- C3: along every run the reflection counter never exceeds 2, and from
any configuration about to reflect with the counter at 2, the next step is
terminal regardless of the verdict's content. -/
theorem C3_reflection_cap (o : Oracles) (email nm co li ro : Option String)
    (un : Option UserNotes) :
    (∀ n, (runN o (init0 email nm co li ro un) n).state.reflection_count ≤ 2)
    ∧ (∀ c : Config, c.node = Node.reflect → c.state.reflection_count = 2 →
        ∃ rec, (stepConfig o c).node = Node.done rec) := by
  constructor
  · intro n
    induction n with
    | zero =>
      show (initialState email nm co li ro un).reflection_count ≤ 2
      show (0 : Nat) ≤ 2
      omega
    | succ k ih =>
      rw [runN_succ]
      exact reflection_count_le_step o _ ih
  · intro c hn hrc
    obtain ⟨s, nd, g, r, e, f⟩ := c
    have hnd : nd = Node.reflect := hn
    subst hnd
    have hrc2 : s.reflection_count = 2 := hrc
    by_cases hv : (o.reflection_agent f s.notes s.info).is_satisfactory = true
    · exact ⟨s.info.getD create_default_info, by rw [step_reflect_sat o s g r e f hv]⟩
    · have hv2 : (o.reflection_agent f s.notes s.info).is_satisfactory = false := by
        simpa using hv
      refine ⟨s.info.getD create_default_info, ?_⟩
      rw [step_reflect_stop o s g r e f hv2 (by omega)]

/-- A configuration about to reflect with the counter at the cap and no
extracted record, for witness instances. -/
def reflectCapConfig : Config :=
  ⟨{ initialState none none none none none none with reflection_count := 2 },
    Node.reflect, 1, 1, 1, 1⟩

theorem C3_reflection_cap_witness :
    (runN trivOracles (init0 none none none none none none) 5).state.reflection_count ≤ 2
    ∧ ∃ rec, (stepConfig trivOracles reflectCapConfig).node = Node.done rec :=
  ⟨(C3_reflection_cap trivOracles none none none none none none).1 5,
    (C3_reflection_cap trivOracles none none none none none none).2 reflectCapConfig rfl rfl⟩

/-- C4: whenever a reflect step terminates the run, the returned record is
the current extracted record if one exists, and otherwise exactly the
default record with years_experience 0, current_company and role set to
Unknown, no prior companies, and the fixed no-information note; a
terminating reflect step therefore never returns an absent record. -/
theorem C4_default_fallback (o : Oracles) (c : Config) (rec : PersonInfo)
    (hn : c.node = Node.reflect) (hinfo : c.state.info = none)
    (hdone : (stepConfig o c).node = Node.done rec) :
    rec = create_default_info
    ∧ create_default_info =
      { years_experience := 0, current_company := "Unknown", role := "Unknown",
        prior_companies := [], notes := "No information available" }
    ∧ (∀ (c2 : Config) (rec2 : PersonInfo), c2.node = Node.reflect →
        (stepConfig o c2).node = Node.done rec2 →
        rec2 = c2.state.info.getD create_default_info) := by
  have hgen : ∀ (c2 : Config) (rec2 : PersonInfo), c2.node = Node.reflect →
      (stepConfig o c2).node = Node.done rec2 →
      rec2 = c2.state.info.getD create_default_info := by
    intro c2 rec2 hn2 hdone2
    obtain ⟨s, nd, g, r, e, f⟩ := c2
    have hnd : nd = Node.reflect := hn2
    subst hnd
    by_cases hv : (o.reflection_agent f s.notes s.info).is_satisfactory = true
    · rw [step_reflect_sat o s g r e f hv] at hdone2
      have : Node.done (s.info.getD create_default_info) = Node.done rec2 := hdone2
      cases this
      rfl
    · have hv2 : (o.reflection_agent f s.notes s.info).is_satisfactory = false := by
        simpa using hv
      by_cases hrc : s.reflection_count < 2
      · rw [step_reflect_unsat o s g r e f hv2 hrc] at hdone2
        exact absurd hdone2 (by simp)
      · rw [step_reflect_stop o s g r e f hv2 hrc] at hdone2
        have : Node.done (s.info.getD create_default_info) = Node.done rec2 := hdone2
        cases this
        rfl
  refine ⟨?_, rfl, hgen⟩
  have := hgen c rec hn hdone
  rw [hinfo] at this
  exact this

theorem C4_default_fallback_witness :
    create_default_info =
      { years_experience := 0, current_company := "Unknown", role := "Unknown",
        prior_companies := [], notes := "No information available" } :=
  (C4_default_fallback trivOracles reflectCapConfig create_default_info rfl rfl rfl).2.1

/-- C7 counterexample: with a query generator that returns an empty list,
the run enters the Research state with an empty searchQueries sequence, so
non-emptiness on entering Research is not guaranteed. -/
theorem C7_counterexample :
    (runN emptyQueryOracles (init0 (some ("a@b.com")) none none none none none) 1).node
      = Node.research
    ∧ (Config.state (runN emptyQueryOracles
        (init0 (some ("a@b.com")) none none none none none) 1)).search_queries = [] :=
  ⟨rfl, rfl⟩

/-- C7 (amended): whenever the Research state is entered, the previous node
was QueryGen and searchQueries equals exactly the list the query-generation
completion call returned — which is non-empty if and only if the client
returned a non-empty list; the code itself enforces no non-emptiness. -/
theorem C7_queries_on_research_entry (o : Oracles) (c : Config) (n : Nat)
    (h : (runN o c (n + 1)).node = Node.research) :
    (runN o c n).node = Node.genQueries
    ∧ (runN o c (n + 1)).state.search_queries
        = (o.query_agent (runN o c n).gen_count (runN o c n).state.person_str).queries
    ∧ ((runN o c (n + 1)).state.search_queries ≠ [] ↔
        (o.query_agent (runN o c n).gen_count (runN o c n).state.person_str).queries ≠ []) := by
  obtain ⟨h1, h2⟩ := research_entered_from_gen o c n h
  exact ⟨h1, h2, by rw [h2]⟩

theorem C7_queries_on_research_entry_witness :
    (runN trivOracles (init0 none none none none none none) 0).node = Node.genQueries
    ∧ (runN trivOracles (init0 none none none none none none) (0 + 1)).state.search_queries
        = Queries.queries (trivOracles.query_agent
            (runN trivOracles (init0 none none none none none none) 0).gen_count
            (runN trivOracles (init0 none none none none none none) 0).state.person_str)
    ∧ ((runN trivOracles (init0 none none none none none none) (0 + 1)).state.search_queries ≠ []
        ↔ Queries.queries (trivOracles.query_agent
            (runN trivOracles (init0 none none none none none none) 0).gen_count
            (runN trivOracles (init0 none none none none none none) 0).state.person_str) ≠ []) :=
  C7_queries_on_research_entry trivOracles (init0 none none none none none none) 0 rfl

/-- C9 counterexample: no bound K caps the number of queries a QueryGen
step stores — for every candidate K there is a completion-client behaviour
that makes the first QueryGen pass store K + 1 queries, since the code
stores the returned list without truncation and configures no maximum. -/
theorem C9_counterexample :
    ¬ ∃ K : Nat, ∀ o : Oracles,
      ((runN o (init0 none none none none none none) 1).state.search_queries).length ≤ K := by
  rintro ⟨K, hK⟩
  have h1 : ((runN
      { trivOracles with query_agent := fun _ _ => ⟨List.replicate (K + 1) ("q")⟩ }
      (init0 none none none none none none) 1).state.search_queries)
      = List.replicate (K + 1) ("q") := rfl
  have h2 := hK { trivOracles with query_agent := fun _ _ => ⟨List.replicate (K + 1) ("q")⟩ }
  rw [h1, List.length_replicate] at h2
  omega

/-- C9 (amended): every QueryGen step stores into searchQueries exactly the
ordered list of query strings returned by the completion client and moves
to Research; the code enforces no maximum length on that list. -/
theorem C9_stores_returned_queries (o : Oracles) (c : Config)
    (h : c.node = Node.genQueries) :
    (stepConfig o c).state.search_queries
      = (o.query_agent c.gen_count c.state.person_str).queries
    ∧ (stepConfig o c).node = Node.research := by
  obtain ⟨s, nd, g, r, e, f⟩ := c
  have hnd : nd = Node.genQueries := h
  subst hnd
  exact ⟨rfl, rfl⟩

theorem C9_stores_returned_queries_witness :
    (stepConfig trivOracles (init0 none none none none none none)).state.search_queries
      = (trivOracles.query_agent (init0 none none none none none none).gen_count
          (init0 none none none none none none).state.person_str).queries
    ∧ (stepConfig trivOracles (init0 none none none none none none)).node = Node.research :=
  C9_stores_returned_queries trivOracles (init0 none none none none none none) rfl

/-- C10: the Research state never runs on queries written by a Reflect
step: every entry into Research comes directly from a QueryGen step, and
the searchQueries the search client is then applied to are exactly the
output of that most recent query-generation call, any queries Reflect
stored having been overwritten. -/
theorem C10_reflect_queries_never_searched (o : Oracles) (c : Config) (n : Nat)
    (h : (runN o c (n + 1)).node = Node.research) :
    (runN o c n).node = Node.genQueries
    ∧ (runN o c (n + 1)).state.search_queries
        = (o.query_agent (runN o c n).gen_count (runN o c n).state.person_str).queries :=
  research_entered_from_gen o c n h

theorem C10_reflect_queries_never_searched_witness :
    (runN satOracles (init0 none none none none none none) 0).node = Node.genQueries
    ∧ (runN satOracles (init0 none none none none none none) (0 + 1)).state.search_queries
        = (satOracles.query_agent
            (runN satOracles (init0 none none none none none none) 0).gen_count
            (runN satOracles (init0 none none none none none none) 0).state.person_str).queries :=
  C10_reflect_queries_never_searched satOracles (init0 none none none none none none) 0 rfl

/-- Fallible external collaborators: the same call sites as `Oracles`, but
each call may fail (network, schema validation, rate limit — spec section
6), modelled with `Except`. -/
structure OraclesE (E : Type) where
  query_agent : Nat → String → Except E Queries
  tavily_search : String → Except E TavilyResponse
  research_notes_agent : Nat → String → Except E String
  extraction_agent : Nat → String → Except E PersonInfo
  reflection_agent : Nat → List String → Option PersonInfo → Except E ReflectionOutput

/-- Fail-fast join of the concurrent search batch (the `asyncio.gather`
call at nodes.py line 186 with default `return_exceptions`): either every
request succeeds and all results are returned, or a failure aborts the
whole batch with no partial list. -/
def gatherE {E α β : Type} (f : α → Except E β) : List α → Except E (List β)
  | [] => Except.ok []
  | a :: rest =>
    match f a with
    | Except.error e => Except.error e
    | Except.ok b =>
      match gatherE f rest with
      | Except.error e => Except.error e
      | Except.ok bs => Except.ok (b :: bs)

/-- One step of the graph with fallible collaborators: any failing external
call makes the step fail, mirroring Python exception propagation (no
try/except appears anywhere in nodes.py). -/
def stepConfigE {E : Type} (o : OraclesE E) (c : Config) : Except E Config :=
  match c.node with
  | Node.genQueries =>
    match o.query_agent c.gen_count c.state.person_str with
    | Except.error e => Except.error e
    | Except.ok result =>
      let s2 := { c.state with search_queries := result.queries }
      Except.ok { c with state := s2, node := Node.research, gen_count := c.gen_count + 1 }
  | Node.research =>
    match gatherE o.tavily_search c.state.search_queries with
    | Except.error e => Except.error e
    | Except.ok search_results =>
      match o.research_notes_agent c.research_count
          (deduplicate_and_format_sources (Sum.inr search_results) 1000 true) with
      | Except.error e => Except.error e
      | Except.ok note =>
        let s2 := { c.state with notes := c.state.notes ++ [note] }
        let c2 := { c with
          state := s2
          node := Node.extract
          research_count := c.research_count + 1 }
        Except.ok c2
  | Node.extract =>
    match o.extraction_agent c.extract_count (String.intercalate ("\n\n") c.state.notes) with
    | Except.error e => Except.error e
    | Except.ok extracted =>
      let s2 := { c.state with info := some extracted }
      let c2 := { c with
        state := s2
        node := Node.reflect
        extract_count := c.extract_count + 1 }
      Except.ok c2
  | Node.reflect =>
    match o.reflection_agent c.reflect_count c.state.notes c.state.info with
    | Except.error e => Except.error e
    | Except.ok verdict =>
      if verdict.is_satisfactory then
        let c2 := { c with
          node := Node.done (c.state.info.getD create_default_info)
          reflect_count := c.reflect_count + 1 }
        Except.ok c2
      else if c.state.reflection_count < 2 then
        let s2 := { c.state with
          reflection_count := c.state.reflection_count + 1
          search_queries := verdict.search_queries }
        let c2 := { c with
          state := s2
          node := Node.genQueries
          reflect_count := c.reflect_count + 1 }
        Except.ok c2
      else
        let c2 := { c with
          node := Node.done (c.state.info.getD create_default_info)
          reflect_count := c.reflect_count + 1 }
        Except.ok c2
  | Node.done _ => Except.ok c

/-- `runNE o c n`: the run after `n` steps with fallible collaborators; a
failed step makes the whole run fail with that error. -/
def runNE {E : Type} (o : OraclesE E) (c : Config) : Nat → Except E Config
  | 0 => Except.ok c
  | n + 1 =>
    match runNE o c n with
    | Except.error e => Except.error e
    | Except.ok d => stepConfigE o d

lemma runNE_succ {E : Type} (o : OraclesE E) (c : Config) (n : Nat) :
    runNE o c (n + 1) = match runNE o c n with
      | Except.error e => Except.error e
      | Except.ok d => stepConfigE o d := rfl

lemma gatherE_error_of_mem {E α β : Type} (f : α → Except E β) (l : List α) (a : α) (e : E)
    (ha : a ∈ l) (hf : f a = Except.error e) : ∃ e2, gatherE f l = Except.error e2 := by
  induction l with
  | nil => exact absurd ha (List.not_mem_nil a)
  | cons b rest ih =>
    rcases List.mem_cons.mp ha with h | h
    · subst h
      exact ⟨e, by rw [gatherE, hf]⟩
    · obtain ⟨e2, h2⟩ := ih h
      cases hfb : f b with
      | error e3 => exact ⟨e3, by rw [gatherE, hfb]⟩
      | ok bv => exact ⟨e2, by rw [gatherE, hfb, h2]⟩

lemma stepE_gen_error {E : Type} (o : OraclesE E) (s : PersonState) (g r e f : Nat) (err : E)
    (hf : o.query_agent g s.person_str = Except.error err) :
    stepConfigE o ⟨s, Node.genQueries, g, r, e, f⟩ = Except.error err := by
  simp [stepConfigE, hf]

lemma stepE_research_error {E : Type} (o : OraclesE E) (s : PersonState) (g r e f : Nat)
    (err : E) (hf : gatherE o.tavily_search s.search_queries = Except.error err) :
    stepConfigE o ⟨s, Node.research, g, r, e, f⟩ = Except.error err := by
  simp [stepConfigE, hf]

lemma stepE_research_notes_error {E : Type} (o : OraclesE E) (s : PersonState) (g r e f : Nat)
    (rs : List TavilyResponse) (err : E)
    (hg : gatherE o.tavily_search s.search_queries = Except.ok rs)
    (hf : o.research_notes_agent r (deduplicate_and_format_sources (Sum.inr rs) 1000 true)
      = Except.error err) :
    stepConfigE o ⟨s, Node.research, g, r, e, f⟩ = Except.error err := by
  simp [stepConfigE, hg, hf]

lemma stepE_extract_error {E : Type} (o : OraclesE E) (s : PersonState) (g r e f : Nat)
    (err : E)
    (hf : o.extraction_agent e (String.intercalate ("\n\n") s.notes) = Except.error err) :
    stepConfigE o ⟨s, Node.extract, g, r, e, f⟩ = Except.error err := by
  simp [stepConfigE, hf]

lemma stepE_reflect_error {E : Type} (o : OraclesE E) (s : PersonState) (g r e f : Nat)
    (err : E) (hf : o.reflection_agent f s.notes s.info = Except.error err) :
    stepConfigE o ⟨s, Node.reflect, g, r, e, f⟩ = Except.error err := by
  simp [stepConfigE, hf]

/-- C8: if any external call of any state fails — including the Research
state's two calls, any single search request of the fan-out and the
note-taking completion call on the aggregated sources — the step of that
state fails (a failing search aborts the whole batch, no partial
aggregation), and a failed step makes every longer run return that same
failure: no partial record, no retry. -/
theorem C8_failure_propagation (E : Type) (o : OraclesE E) :
    (∀ (c : Config) (q : String) (e : E), c.node = Node.research →
      q ∈ c.state.search_queries → o.tavily_search q = Except.error e →
      ∃ e2, stepConfigE o c = Except.error e2)
    ∧ (∀ (c : Config) (rs : List TavilyResponse) (e : E), c.node = Node.research →
      gatherE o.tavily_search c.state.search_queries = Except.ok rs →
      o.research_notes_agent c.research_count
        (deduplicate_and_format_sources (Sum.inr rs) 1000 true) = Except.error e →
      stepConfigE o c = Except.error e)
    ∧ (∀ (c : Config) (e : E), c.node = Node.genQueries →
      o.query_agent c.gen_count c.state.person_str = Except.error e →
      stepConfigE o c = Except.error e)
    ∧ (∀ (c : Config) (e : E), c.node = Node.extract →
      o.extraction_agent c.extract_count (String.intercalate ("\n\n") c.state.notes)
        = Except.error e →
      stepConfigE o c = Except.error e)
    ∧ (∀ (c : Config) (e : E), c.node = Node.reflect →
      o.reflection_agent c.reflect_count c.state.notes c.state.info = Except.error e →
      stepConfigE o c = Except.error e)
    ∧ (∀ (c0 : Config) (n : Nat) (e : E), runNE o c0 n = Except.error e →
      ∀ m, runNE o c0 (n + m) = Except.error e) := by
  refine ⟨?_, ?_, ?_, ?_, ?_, ?_⟩
  · intro c q e hn hq hf
    obtain ⟨s, nd, g, r, e0, f⟩ := c
    have hnd : nd = Node.research := hn
    subst hnd
    have hq2 : q ∈ s.search_queries := hq
    obtain ⟨e2, h2⟩ := gatherE_error_of_mem o.tavily_search s.search_queries q e hq2 hf
    exact ⟨e2, stepE_research_error o s g r e0 f e2 h2⟩
  · intro c rs e hn hg hf
    obtain ⟨s, nd, g, r, e0, f⟩ := c
    have hnd : nd = Node.research := hn
    subst hnd
    have hg2 : gatherE o.tavily_search s.search_queries = Except.ok rs := hg
    have hf2 : o.research_notes_agent r
        (deduplicate_and_format_sources (Sum.inr rs) 1000 true) = Except.error e := hf
    exact stepE_research_notes_error o s g r e0 f rs e hg2 hf2
  · intro c e hn hf
    obtain ⟨s, nd, g, r, e0, f⟩ := c
    have hnd : nd = Node.genQueries := hn
    subst hnd
    have hf2 : o.query_agent g s.person_str = Except.error e := hf
    exact stepE_gen_error o s g r e0 f e hf2
  · intro c e hn hf
    obtain ⟨s, nd, g, r, e0, f⟩ := c
    have hnd : nd = Node.extract := hn
    subst hnd
    have hf2 : o.extraction_agent e0 (String.intercalate ("\n\n") s.notes)
        = Except.error e := hf
    exact stepE_extract_error o s g r e0 f e hf2
  · intro c e hn hf
    obtain ⟨s, nd, g, r, e0, f⟩ := c
    have hnd : nd = Node.reflect := hn
    subst hnd
    have hf2 : o.reflection_agent f s.notes s.info = Except.error e := hf
    exact stepE_reflect_error o s g r e0 f e hf2
  · intro c0 n e hfail m
    induction m with
    | zero => exact hfail
    | succ k ih =>
      rw [show n + (k + 1) = (n + k) + 1 from rfl, runNE_succ, ih]

/-- Collaborators every call of which fails, for witness instances. -/
def failOraclesE : OraclesE String :=
  { query_agent := fun _ _ => Except.error ("boom")
    tavily_search := fun _ => Except.error ("boom")
    research_notes_agent := fun _ _ => Except.error ("boom")
    extraction_agent := fun _ _ => Except.error ("boom")
    reflection_agent := fun _ _ _ => Except.error ("boom") }

theorem C8_failure_propagation_witness :
    stepConfigE failOraclesE (init0 none none none none none none) = Except.error ("boom") :=
  (C8_failure_propagation String failOraclesE).2.2.1 (init0 none none none none none none)
    ("boom") rfl rfl
